import Mathlib

/-!
Shallow embedding of the AutoWeave genetic deduplication core
(scripts/intelligent_deduplication.py) and of the genetic reconstruction tool
(scripts/genetic-reconstruction.py).

Modelling conventions:
* Python strings are Lean String values; character-level helpers are written as
  structural recursion over String.data so that every definition is executable
  and kernel-reducible.
* timestamps (datetime.now().isoformat()) are modelled as a Nat parameter given
  to each mutating call; the two now() calls inside one register call are the
  same instant in the model.
* the sha256 digest of the composite identity string is modelled by the
  composite string itself: the spec treats hash collisions as negligible, so the
  digest is an injective stand-in and digest equality coincides with composite
  equality.
* the sqlite tables are modelled as in-memory lists of records; a failing INSERT
  (primary-key violation) makes the whole call return an error with no state
  change, matching the uncommitted transaction being rolled back when the
  exception escapes before conn.commit().
-/

/-- Whitespace characters recognised by the normalizer: the ASCII whitespace
set stripped by the Python str.strip and str.split calls used in the source. -/
def isPySpace (c : Char) : Bool :=
  c == ' ' || c == '\t' || c == '\n' || c == '\r' || c == '\x0b' || c == '\x0c'

/-- Split a string at newline characters, keeping empty pieces, as the Python
content.split applied with a newline separator. -/
def splitLinesAux : List Char → List Char → List String
  | [], acc => [String.mk acc.reverse]
  | c :: cs, acc =>
    if c == '\n' then String.mk acc.reverse :: splitLinesAux cs []
    else splitLinesAux cs (c :: acc)

/-- Split a string into its lines. -/
def splitLines (s : String) : List String :=
  splitLinesAux s.data []

/-- line.strip in the source: drop leading and trailing whitespace. -/
def pyStrip (s : String) : String :=
  String.mk (((s.data.dropWhile isPySpace).reverse.dropWhile isPySpace).reverse)

/-- content.split with no separator in the source: split on runs of whitespace,
discarding empty pieces. -/
def splitWsAux : List Char → List Char → List String
  | [], [] => []
  | [], acc => [String.mk acc.reverse]
  | c :: cs, acc =>
    if isPySpace c then
      if acc.isEmpty then splitWsAux cs []
      else String.mk acc.reverse :: splitWsAux cs []
    else splitWsAux cs (c :: acc)

/-- Whitespace-delimited tokens of a string. -/
def pySplitWs (s : String) : List String :=
  splitWsAux s.data []

/-- Character-list version of the Python str.startswith test. -/
def listStartsWith : List Char → List Char → Bool
  | _, [] => true
  | [], _ :: _ => false
  | c :: cs, p :: ps => c == p && listStartsWith cs ps

/-- str.startswith over strings. -/
def startsWithStr (s pat : String) : Bool :=
  listStartsWith s.data pat.data

/-- A stripped line is discarded when it is empty or begins with one of the
fixed comment prefixes of the source (including a bare star). -/
def isDroppedLine (l : String) : Bool :=
  l == "" || startsWithStr l "#" || startsWithStr l "//" ||
    startsWithStr l "/*" || startsWithStr l "*"

/-- join with a separator, as the Python str.join. -/
def joinWith (sep : String) : List String → String
  | [] => ""
  | [s] => s
  | s :: rest => s ++ sep ++ joinWith sep rest

/-- collapse internal whitespace runs of a line to single spaces: the
space.join of line.split in the source. -/
def collapseWs (l : String) : String :=
  joinWith " " (pySplitWs l)

/-- The _normalize_content method of IntelligentDeduplicator, translated
line by line: iterate over the lines, strip each one, skip blank and
comment-prefixed lines, collapse whitespace in the survivors, rejoin. -/
def normalize_content (content : String) : String :=
  let lines := splitLines content
  let normalized_lines := lines.foldl
    (fun acc line =>
      let clean_line := pyStrip line
      if isDroppedLine clean_line then acc
      else acc ++ [collapseWs clean_line])
    []
  joinWith "\n" normalized_lines

/-- Modelled from the spec wording of the Normalizer, for comparison with the
source translation: split into lines, trim each line, drop lines that are empty
or comment-prefixed after trimming, collapse whitespace runs in the surviving
lines, rejoin the survivors in original order with newline separators. -/
def normalizeSpec (content : String) : String :=
  joinWith "\n"
    ((((splitLines content).map pyStrip).filter (fun l => !(isDroppedLine l))).map collapseWs)

/-- str.lower over the string data, as applied to the gene name. -/
def strToLower (s : String) : String :=
  String.mk (s.data.map Char.toLower)

/-- calculate_content_hash from the source: digest of the composite string
normalize(content) ++ "::" ++ type ++ "::" ++ lowercase(name); see the header
comment for how the sha256 digest is modelled. -/
def calculate_content_hash (content gene_type name : String) : String :=
  normalize_content content ++ "::" ++ gene_type ++ "::" ++ strToLower name

theorem normalize_foldl_general (lines acc : List String) :
    lines.foldl
      (fun acc line =>
        let clean_line := pyStrip line
        if isDroppedLine clean_line then acc else acc ++ [collapseWs clean_line]) acc
    = acc ++ ((lines.map pyStrip).filter (fun l => !(isDroppedLine l))).map collapseWs := by
  induction lines generalizing acc with
  | nil => simp
  | cons l ls ih =>
    simp only [List.foldl_cons, List.map_cons, List.filter_cons]
    by_cases h : isDroppedLine (pyStrip l)
    · simp [h, ih]
    · simp [h, ih]

/-- C8: normalize splits the input into lines, trims every line, drops the
lines that are blank after trimming or whose trimmed form starts with one of
the four comment prefixes (a bare star included), collapses internal
whitespace runs of each surviving line to one space, and rejoins the survivors
in original order with newlines: the source loop coincides with the spec
pipeline, and as a pure function its result depends only on the input text. -/
theorem normalize_content_eq_spec (content : String) :
    normalize_content content = normalizeSpec content := by
  show joinWith "\n"
      ((splitLines content).foldl
        (fun acc line =>
          let clean_line := pyStrip line
          if isDroppedLine clean_line then acc else acc ++ [collapseWs clean_line]) [])
    = normalizeSpec content
  rw [normalize_foldl_general (splitLines content) []]
  simp [normalizeSpec]

/-- C9: the fingerprint is deterministic and depends only on the triple of
normalized content, type and lowercased name, because the digest is computed
over exactly the composite string built from those three values. -/
theorem calculate_content_hash_deterministic
    (c1 ty1 n1 c2 ty2 n2 : String)
    (hc : normalize_content c1 = normalize_content c2)
    (hty : ty1 = ty2) (hn : strToLower n1 = strToLower n2) :
    calculate_content_hash c1 ty1 n1 = calculate_content_hash c2 ty2 n2 := by
  unfold calculate_content_hash
  rw [hc, hty, hn]

theorem calculate_content_hash_deterministic_witness :
    normalize_content "x   y" = normalize_content " x y " ∧
      calculate_content_hash "x   y" "function" "Foo"
        = calculate_content_hash " x y " "function" "foo" :=
  ⟨by decide,
   calculate_content_hash_deterministic "x   y" "function" "Foo" " x y " "function" "foo"
     (by decide) rfl (by decide)⟩

/-- A gene record as consumed by the deduplicator: gene_data in the source is a
dict carrying name, type, content and an optional complexity (defaulting 0). -/
structure GeneData where
  name : String
  type : String
  content : String
  complexity : Nat := 0
deriving DecidableEq

/-- Fingerprint of a gene, as computed on every deduplicator entry point. -/
def fingerprintOf (g : GeneData) : String :=
  calculate_content_hash g.content g.type g.name

/-- The _calculate_similarity method: simplified Jaccard over the set of
whitespace tokens of the two normalized contents. The Python sets are modelled
by deduplicated lists. -/
def calculate_similarity (content1 content2 : String) : ℚ :=
  let words1 := (pySplitWs (normalize_content content1)).dedup
  let words2 := (pySplitWs (normalize_content content2)).dedup
  if words1.isEmpty && words2.isEmpty then 1
  else
    let intersection := (words1.filter (fun w => w ∈ words2)).length
    let union := words1.length + (words2.filter (fun w => w ∉ words1)).length
    if union > 0 then (intersection : ℚ) / (union : ℚ) else 0

/-- Modelled from the spec wording of the EvolutionClassifier similarity:
Jaccard similarity of the two token sets, 1 when both sets are empty and 0 on
an empty union otherwise. -/
def jaccardSpec (content1 content2 : String) : ℚ :=
  let A := (pySplitWs (normalize_content content1)).toFinset
  let B := (pySplitWs (normalize_content content2)).toFinset
  if A = ∅ ∧ B = ∅ then 1
  else if (A ∪ B) = ∅ then 0
  else ((A ∩ B).card : ℚ) / ((A ∪ B).card : ℚ)

/-- Result dict of detect_mutations. -/
structure MutationResult where
  type : String
  confidence : ℚ
  old_hash : Option String := none
  new_hash : Option String := none
  similarity : Option ℚ := none
deriving DecidableEq

/-- The detect_mutations method: short-circuit on equal fingerprints, else
classify by similarity thresholds. -/
def detect_mutations (old_gene new_gene : GeneData) : MutationResult :=
  let old_hash := fingerprintOf old_gene
  let new_hash := fingerprintOf new_gene
  if old_hash = new_hash then
    ⟨"no_change", 1, none, none, none⟩
  else
    let similarity := calculate_similarity old_gene.content new_gene.content
    if similarity > 0.8 then
      ⟨"mutation", similarity, some old_hash, some new_hash, some similarity⟩
    else if similarity > 0.3 then
      ⟨"major_refactor", similarity, some old_hash, some new_hash, some similarity⟩
    else
      ⟨"replacement", 1 - similarity, some old_hash, some new_hash, some similarity⟩

theorem dedup_filter_length_eq_inter_card (l1 l2 : List String) :
    (l1.dedup.filter (fun w => w ∈ l2.dedup)).length
      = (l1.toFinset ∩ l2.toFinset).card := by
  have hnd : (l1.dedup.filter (fun w => w ∈ l2.dedup)).Nodup :=
    l1.nodup_dedup.filter _
  have hfs : (l1.dedup.filter (fun w => w ∈ l2.dedup)).toFinset
      = l1.toFinset ∩ l2.toFinset := by
    ext x
    simp [List.mem_filter, List.mem_dedup, Finset.mem_inter]
  rw [← hfs, List.toFinset_card_of_nodup hnd]

theorem dedup_union_length_eq_union_card (l1 l2 : List String) :
    l1.dedup.length + (l2.dedup.filter (fun w => w ∉ l1.dedup)).length
      = (l1.toFinset ∪ l2.toFinset).card := by
  have hnd : (l2.dedup.filter (fun w => w ∉ l1.dedup)).Nodup :=
    l2.nodup_dedup.filter _
  have hfs : (l2.dedup.filter (fun w => w ∉ l1.dedup)).toFinset
      = l2.toFinset \ l1.toFinset := by
    ext x
    simp [List.mem_filter, List.mem_dedup, Finset.mem_sdiff]
  have hcard : l1.toFinset.card + (l2.toFinset \ l1.toFinset).card
      = (l1.toFinset ∪ l2.toFinset).card := by
    rw [← Finset.card_union_of_disjoint Finset.disjoint_sdiff,
      Finset.union_sdiff_self_eq_union]
  have h1 : l1.dedup.length = l1.toFinset.card := (List.card_toFinset l1).symm
  have h2 : (l2.dedup.filter (fun w => w ∉ l1.dedup)).length
      = (l2.toFinset \ l1.toFinset).card := by
    rw [← hfs, List.toFinset_card_of_nodup hnd]
  rw [h1, h2, hcard]

theorem calculate_similarity_eq_jaccardSpec (c1 c2 : String) :
    calculate_similarity c1 c2 = jaccardSpec c1 c2 := by
  simp only [calculate_similarity, jaccardSpec]
  set l1 := pySplitWs (normalize_content c1) with hl1
  set l2 := pySplitWs (normalize_content c2) with hl2
  have hAC : (l1.dedup.isEmpty && l2.dedup.isEmpty) = true
      ↔ (l1.toFinset = ∅ ∧ l2.toFinset = ∅) := by
    simp [List.isEmpty_iff, List.dedup_eq_nil, List.toFinset_eq_empty_iff]
  by_cases hA : (l1.dedup.isEmpty && l2.dedup.isEmpty) = true
  · rw [if_pos hA, if_pos (hAC.mp hA)]
  · have hC : ¬(l1.toFinset = ∅ ∧ l2.toFinset = ∅) := fun h => hA (hAC.mpr h)
    rw [if_neg hA, if_neg hC]
    have hD : ¬(l1.toFinset ∪ l2.toFinset = ∅) := by
      intro h
      exact hC ⟨(Finset.union_eq_empty.mp h).1, (Finset.union_eq_empty.mp h).2⟩
    rw [if_neg hD]
    have hB : l1.dedup.length + (l2.dedup.filter (fun w => w ∉ l1.dedup)).length > 0 := by
      rw [dedup_union_length_eq_union_card]
      exact Finset.card_pos.mpr (Finset.nonempty_iff_ne_empty.mpr hD)
    rw [if_pos hB, dedup_filter_length_eq_inter_card,
      dedup_union_length_eq_union_card]

/-- C3: classify short-circuits to no_change with confidence 1 when the two
fingerprints are equal; otherwise, with s the Jaccard similarity of the
whitespace token sets of the two normalized contents (1 when both sets are
empty, intersection size over union size otherwise, 0 on an empty union), the
result is mutation with confidence s when s exceeds 0.8, major_refactor with
confidence s when s exceeds 0.3 but not 0.8, and replacement with confidence
1 - s otherwise. -/
theorem detect_mutations_classification (old_gene new_gene : GeneData) :
    (fingerprintOf old_gene = fingerprintOf new_gene →
      detect_mutations old_gene new_gene = ⟨"no_change", 1, none, none, none⟩) ∧
    (fingerprintOf old_gene ≠ fingerprintOf new_gene →
      (jaccardSpec old_gene.content new_gene.content > 0.8 →
        detect_mutations old_gene new_gene =
          ⟨"mutation", jaccardSpec old_gene.content new_gene.content,
            some (fingerprintOf old_gene), some (fingerprintOf new_gene),
            some (jaccardSpec old_gene.content new_gene.content)⟩) ∧
      (0.3 < jaccardSpec old_gene.content new_gene.content ∧
          jaccardSpec old_gene.content new_gene.content ≤ 0.8 →
        detect_mutations old_gene new_gene =
          ⟨"major_refactor", jaccardSpec old_gene.content new_gene.content,
            some (fingerprintOf old_gene), some (fingerprintOf new_gene),
            some (jaccardSpec old_gene.content new_gene.content)⟩) ∧
      (jaccardSpec old_gene.content new_gene.content ≤ 0.3 →
        detect_mutations old_gene new_gene =
          ⟨"replacement", 1 - jaccardSpec old_gene.content new_gene.content,
            some (fingerprintOf old_gene), some (fingerprintOf new_gene),
            some (jaccardSpec old_gene.content new_gene.content)⟩)) := by
  have hs := calculate_similarity_eq_jaccardSpec old_gene.content new_gene.content
  constructor
  · intro h
    simp only [detect_mutations]
    rw [if_pos h]
  · intro hne
    refine ⟨fun hgt => ?_, fun hmid => ?_, fun hle => ?_⟩
    · simp only [detect_mutations]
      rw [if_neg hne, hs, if_pos hgt]
    · simp only [detect_mutations]
      rw [if_neg hne, hs, if_neg (not_lt.mpr hmid.2), if_pos hmid.1]
    · have h08 : (0.3 : ℚ) ≤ 0.8 := by norm_num
      simp only [detect_mutations]
      rw [if_neg hne, hs, if_neg (not_lt.mpr (le_trans hle h08)),
        if_neg (not_lt.mpr hle)]

theorem calculate_similarity_eval (c1 c2 : String) (i u : ℕ)
    (hne : ((pySplitWs (normalize_content c1)).dedup.isEmpty
        && (pySplitWs (normalize_content c2)).dedup.isEmpty) = false)
    (hi : ((pySplitWs (normalize_content c1)).dedup.filter
        (fun w => w ∈ (pySplitWs (normalize_content c2)).dedup)).length = i)
    (hu : (pySplitWs (normalize_content c1)).dedup.length
        + ((pySplitWs (normalize_content c2)).dedup.filter
            (fun w => w ∉ (pySplitWs (normalize_content c1)).dedup)).length = u)
    (hupos : 0 < u) :
    calculate_similarity c1 c2 = (i : ℚ) / (u : ℚ) := by
  simp only [calculate_similarity]
  rw [hne, hi, hu]
  simp only [Bool.false_eq_true, if_false]
  rw [if_pos hupos]

theorem detect_mutations_cases (old_gene new_gene : GeneData)
    (hne : fingerprintOf old_gene ≠ fingerprintOf new_gene) :
    detect_mutations old_gene new_gene =
      (if calculate_similarity old_gene.content new_gene.content > 0.8 then
        ⟨"mutation", calculate_similarity old_gene.content new_gene.content,
          some (fingerprintOf old_gene), some (fingerprintOf new_gene),
          some (calculate_similarity old_gene.content new_gene.content)⟩
      else if calculate_similarity old_gene.content new_gene.content > 0.3 then
        ⟨"major_refactor", calculate_similarity old_gene.content new_gene.content,
          some (fingerprintOf old_gene), some (fingerprintOf new_gene),
          some (calculate_similarity old_gene.content new_gene.content)⟩
      else
        ⟨"replacement", 1 - calculate_similarity old_gene.content new_gene.content,
          some (fingerprintOf old_gene), some (fingerprintOf new_gene),
          some (calculate_similarity old_gene.content new_gene.content)⟩) := by
  simp only [detect_mutations]
  rw [if_neg hne]

theorem detect_mutations_classification_witness :
    detect_mutations ⟨"f", "function", "a b", 0⟩ ⟨"f", "function", "a  b", 0⟩
        = ⟨"no_change", 1, none, none, none⟩ ∧
      detect_mutations ⟨"f", "function", "t1 t2 t3 t4 t5 t6 t7 t8 t9", 0⟩
          ⟨"f", "function", "t1 t2 t3 t4 t5 t6 t7 t8 t9 t10", 0⟩
        = ⟨"mutation", 9/10,
            some (fingerprintOf ⟨"f", "function", "t1 t2 t3 t4 t5 t6 t7 t8 t9", 0⟩),
            some (fingerprintOf ⟨"f", "function", "t1 t2 t3 t4 t5 t6 t7 t8 t9 t10", 0⟩),
            some (9/10)⟩ := by
  have hval : jaccardSpec "t1 t2 t3 t4 t5 t6 t7 t8 t9" "t1 t2 t3 t4 t5 t6 t7 t8 t9 t10"
      = (9 : ℚ)/10 := by
    rw [← calculate_similarity_eq_jaccardSpec]
    exact calculate_similarity_eval _ _ 9 10 (by decide) (by decide) (by decide) (by norm_num)
  constructor
  · exact (detect_mutations_classification _ _).1 (by decide)
  · have h := ((detect_mutations_classification
      ⟨"f", "function", "t1 t2 t3 t4 t5 t6 t7 t8 t9", 0⟩
      ⟨"f", "function", "t1 t2 t3 t4 t5 t6 t7 t8 t9 t10", 0⟩).2 (by decide)).1 (by
        rw [hval]; norm_num)
    rw [h, hval]

/-- Concrete gene pair whose token sets share 4 of 5 total tokens, giving
Jaccard similarity exactly 0.8. -/
def c4OldA : GeneData := ⟨"f", "function", "a b c d e", 0⟩

/-- Counterpart of c4OldA with one token removed. -/
def c4NewA : GeneData := ⟨"f", "function", "a b c d", 0⟩

/-- Concrete gene pair whose token sets share 3 of 10 total tokens, giving
Jaccard similarity exactly 0.3. -/
def c4OldB : GeneData := ⟨"f", "function", "a b c p q r s", 0⟩

/-- Counterpart of c4OldB replacing the non-shared tokens. -/
def c4NewB : GeneData := ⟨"f", "function", "a b c u v w", 0⟩

theorem c4_counterexample :
    calculate_similarity c4OldA.content c4NewA.content = 0.8 ∧
    fingerprintOf c4OldA ≠ fingerprintOf c4NewA ∧
    (detect_mutations c4OldA c4NewA).type = "major_refactor" ∧
    ¬((detect_mutations c4OldA c4NewA).type = "mutation") ∧
    calculate_similarity c4OldB.content c4NewB.content = 0.3 ∧
    fingerprintOf c4OldB ≠ fingerprintOf c4NewB ∧
    (detect_mutations c4OldB c4NewB).type = "replacement" ∧
    ¬((detect_mutations c4OldB c4NewB).type = "major_refactor") := by
  have hsA : calculate_similarity c4OldA.content c4NewA.content = (4 : ℚ)/5 :=
    calculate_similarity_eval _ _ 4 5 (by decide) (by decide) (by decide) (by norm_num)
  have hsB : calculate_similarity c4OldB.content c4NewB.content = (3 : ℚ)/10 :=
    calculate_similarity_eval _ _ 3 10 (by decide) (by decide) (by decide) (by norm_num)
  have hneA : fingerprintOf c4OldA ≠ fingerprintOf c4NewA := by decide
  have hneB : fingerprintOf c4OldB ≠ fingerprintOf c4NewB := by decide
  have hdA := detect_mutations_cases c4OldA c4NewA hneA
  have hdB := detect_mutations_cases c4OldB c4NewB hneB
  rw [hsA] at hdA
  rw [hsB] at hdB
  rw [if_neg (by norm_num), if_pos (by norm_num)] at hdA
  rw [if_neg (by norm_num), if_neg (by norm_num)] at hdB
  refine ⟨by rw [hsA]; norm_num, hneA, by rw [hdA], by rw [hdA]; simp, ?_, hneB, ?_, ?_⟩
  · rw [hsB]; norm_num
  · rw [hdB]
  · rw [hdB]; simp

/-- C4 amended: the thresholds are strict, so a pair of genes with distinct
fingerprints whose token-set Jaccard similarity is exactly 0.8 classifies as
major_refactor (not mutation), and a pair whose similarity is exactly 0.3
classifies as replacement (not major_refactor): the boundary values fall to
the lower branch. -/
theorem detect_mutations_boundary_strict (old_gene new_gene : GeneData)
    (hne : fingerprintOf old_gene ≠ fingerprintOf new_gene) :
    (jaccardSpec old_gene.content new_gene.content = 0.8 →
      (detect_mutations old_gene new_gene).type = "major_refactor") ∧
    (jaccardSpec old_gene.content new_gene.content = 0.3 →
      (detect_mutations old_gene new_gene).type = "replacement") := by
  have hs := calculate_similarity_eq_jaccardSpec old_gene.content new_gene.content
  constructor
  · intro h08
    simp only [detect_mutations]
    rw [if_neg hne, hs, h08, if_neg (by norm_num), if_pos (by norm_num)]
  · intro h03
    simp only [detect_mutations]
    rw [if_neg hne, hs, h03, if_neg (by norm_num), if_neg (by norm_num)]

theorem detect_mutations_boundary_strict_witness :
    (detect_mutations c4OldA c4NewA).type = "major_refactor" ∧
      (detect_mutations c4OldB c4NewB).type = "replacement" := by
  have hjA : jaccardSpec c4OldA.content c4NewA.content = (0.8 : ℚ) := by
    rw [← calculate_similarity_eq_jaccardSpec]
    rw [calculate_similarity_eval c4OldA.content c4NewA.content 4 5
      (by decide) (by decide) (by decide) (by norm_num)]
    norm_num
  have hjB : jaccardSpec c4OldB.content c4NewB.content = (0.3 : ℚ) := by
    rw [← calculate_similarity_eq_jaccardSpec]
    rw [calculate_similarity_eval c4OldB.content c4NewB.content 3 10
      (by decide) (by decide) (by decide) (by norm_num)]
    norm_num
  exact ⟨(detect_mutations_boundary_strict c4OldA c4NewA (by decide)).1 hjA,
    (detect_mutations_boundary_strict c4OldB c4NewB (by decide)).2 hjB⟩

/-- Metadata blobs written by the deduplicator: the JSON maps of the source,
with the fixed keys each write path uses. -/
inductive MetaVal where
  | complexityMeta (complexity : Nat)
  | creationMeta (file : String) (size : Nat)
  | duplicationMeta (original_file : String) (duplicate_file : String)
deriving DecidableEq

/-- A row of the content_hashes table; content_hash is the primary key and
occurrence_count defaults to 1 on insert. -/
structure ContentHashRecord where
  content_hash : String
  first_seen : Nat
  last_seen : Nat
  occurrence_count : Nat
  representative_gene_id : String
  file_paths : List String
  metadata : MetaVal
deriving DecidableEq

/-- A row of the gene_evolution table; gene_id is the primary key. -/
structure EvolutionRecord where
  gene_id : String
  content_hash : String
  parent_gene_id : Option String
  evolution_type : String
  confidence_score : ℚ
  timestamp : Nat
  metadata : MetaVal
deriving DecidableEq

/-- The deduplication store: the two sqlite tables as lists of rows. -/
structure DedupState where
  content_hashes : List ContentHashRecord
  gene_evolution : List EvolutionRecord
deriving DecidableEq

/-- The freshly initialised store. -/
def dedupEmpty : DedupState := ⟨[], []⟩

/-- Row lookup by content hash, the primary key of content_hashes. -/
def findHash : List ContentHashRecord → String → Option ContentHashRecord
  | [], _ => none
  | r :: rest, h => if r.content_hash = h then some r else findHash rest h

/-- Row lookup by gene id, the primary key of gene_evolution. -/
def findEvo : List EvolutionRecord → String → Option EvolutionRecord
  | [], _ => none
  | e :: rest, gid => if e.gene_id = gid then some e else findEvo rest gid

/-- INSERT OR REPLACE into gene_evolution keyed on gene_id: an existing row
with the same gene id is overwritten, otherwise the row is appended. -/
def insertOrReplaceEvo (l : List EvolutionRecord) (e : EvolutionRecord) :
    List EvolutionRecord :=
  match findEvo l e.gene_id with
  | some _ => l.map (fun x => if x.gene_id = e.gene_id then e else x)
  | none => l ++ [e]

/-- Result dict of register_gene. The Python dict carries different keys on
the two branches; a key that is absent from the returned dict is none. -/
structure RegResult where
  is_duplicate : Bool
  representative_gene_id : Option String
  occurrence_count : Option Nat
  gene_id : Option String
  action : String
deriving DecidableEq

/-- The read phase of register_gene: the SELECT of representative_gene_id,
file_paths and occurrence_count from content_hashes for the fingerprint. -/
def register_check (s : DedupState) (content_hash : String) :
    Option (String × List String × Nat) :=
  (findHash s.content_hashes content_hash).map
    (fun r => (r.representative_gene_id, r.file_paths, r.occurrence_count))

/-- The write phase of register_gene, acting on the current state with the
(possibly stale) row fetched by the read phase. In the duplicate branch the
UPDATE increments the current occurrence_count of the matching row while
writing last_seen and the path list computed from the fetched row, exactly as
the SQL statement does, and the returned count is the fetched count plus one;
in the new branch a plain INSERT that would violate a primary key makes the
whole call fail with no state change. -/
def register_write (s : DedupState) (existing : Option (String × List String × Nat))
    (gene_data : GeneData) (gene_id file_path : String) (t : Nat) :
    Except String (RegResult × DedupState) :=
  let content_hash := fingerprintOf gene_data
  match existing with
  | some (rep, paths, cnt) =>
    let existing_paths := if file_path ∈ paths then paths else paths ++ [file_path]
    let hashes := s.content_hashes.map (fun r =>
      if r.content_hash = content_hash then
        { r with last_seen := t, occurrence_count := r.occurrence_count + 1,
                 file_paths := existing_paths }
      else r)
    let evoRec : EvolutionRecord :=
      ⟨gene_id, content_hash, some rep, "duplication", 0.95, t,
        MetaVal.duplicationMeta (existing_paths.headD "") file_path⟩
    Except.ok (⟨true, some rep, some (cnt + 1), none, "linked_to_existing"⟩,
      ⟨hashes, insertOrReplaceEvo s.gene_evolution evoRec⟩)
  | none =>
    match findHash s.content_hashes content_hash with
    | some _ => Except.error "UNIQUE constraint failed: content_hashes.content_hash"
    | none =>
      match findEvo s.gene_evolution gene_id with
      | some _ => Except.error "UNIQUE constraint failed: gene_evolution.gene_id"
      | none =>
        Except.ok (⟨false, none, none, some gene_id, "created_new"⟩,
          ⟨s.content_hashes ++
            [⟨content_hash, t, t, 1, gene_id, [file_path],
              MetaVal.complexityMeta gene_data.complexity⟩],
           s.gene_evolution ++
            [⟨gene_id, content_hash, none, "creation", 1, t,
              MetaVal.creationMeta file_path gene_data.content.length⟩]⟩)

/-- register_gene from the source: the existence check followed immediately by
the write phase on the same state, within one call. -/
def register_gene (s : DedupState) (gene_data : GeneData) (gene_id file_path : String)
    (t : Nat) : Except String (RegResult × DedupState) :=
  register_write s (register_check s (fingerprintOf gene_data)) gene_data gene_id file_path t

/-- Project the result dict out of a register_gene return value. -/
def regResultOf (r : Except String (RegResult × DedupState)) : Option RegResult :=
  match r with
  | Except.ok (res, _) => some res
  | Except.error _ => none

/-- Project the resulting store out of a register_gene return value, with a
fallback for the error case. -/
def regStateOf (r : Except String (RegResult × DedupState)) (fallback : DedupState) :
    DedupState :=
  match r with
  | Except.ok (_, s1) => s1
  | Except.error _ => fallback

/-- One registration request: the gene, its caller-assigned id, the file it
was seen in, and the call instant. -/
structure RegCall where
  gene : GeneData
  gene_id : String
  file_path : String
  t : Nat
deriving DecidableEq

/-- Run a sequence of register_gene calls, stopping at the first error. -/
def registerSeq (s : DedupState) : List RegCall → Except String DedupState
  | [] => Except.ok s
  | c :: rest =>
    match register_gene s c.gene c.gene_id c.file_path c.t with
    | Except.ok (_, s1) => registerSeq s1 rest
    | Except.error e => Except.error e

theorem register_gene_create_eq (s : DedupState) (g : GeneData)
    (gene_id file_path : String) (t : Nat)
    (hchk : register_check s (fingerprintOf g) = none)
    (hid : findEvo s.gene_evolution gene_id = none) :
    register_gene s g gene_id file_path t =
      Except.ok (⟨false, none, none, some gene_id, "created_new"⟩,
        ⟨s.content_hashes ++
          [⟨fingerprintOf g, t, t, 1, gene_id, [file_path],
            MetaVal.complexityMeta g.complexity⟩],
         s.gene_evolution ++
          [⟨gene_id, fingerprintOf g, none, "creation", 1, t,
            MetaVal.creationMeta file_path g.content.length⟩]⟩) := by
  have hfind : findHash s.content_hashes (fingerprintOf g) = none := by
    simpa [register_check] using hchk
  simp only [register_gene, hchk, register_write, hfind, hid]

theorem register_gene_dup_eq (s : DedupState) (g : GeneData)
    (gene_id file_path : String) (t : Nat)
    (rep : String) (paths : List String) (cnt : Nat)
    (hchk : register_check s (fingerprintOf g) = some (rep, paths, cnt))
    (hid : findEvo s.gene_evolution gene_id = none) :
    register_gene s g gene_id file_path t =
      Except.ok (⟨true, some rep, some (cnt + 1), none, "linked_to_existing"⟩,
        ⟨s.content_hashes.map (fun r =>
            if r.content_hash = fingerprintOf g then
              { r with last_seen := t, occurrence_count := r.occurrence_count + 1,
                       file_paths := if file_path ∈ paths then paths
                                     else paths ++ [file_path] }
            else r),
         s.gene_evolution ++
          [⟨gene_id, fingerprintOf g, some rep, "duplication", 0.95, t,
            MetaVal.duplicationMeta
              ((if file_path ∈ paths then paths else paths ++ [file_path]).headD "")
              file_path⟩]⟩) := by
  simp only [register_gene, hchk, register_write, insertOrReplaceEvo, hid]

/-- C1 amended: for a gene id not already present in the evolution ledger,
registering a gene whose fingerprint is not in the store inserts a
ContentHashRecord with occurrence_count 1 and representative_gene_id the gene
id, appends a creation EvolutionRecord with confidence 1.0, and returns
is_duplicate false and action created_new, the result carrying the gene id but
no representative_gene_id or occurrence_count field; registering a gene whose
fingerprint already has a record adds file_path to the path set if absent,
increments occurrence_count, updates last_seen, appends a duplication
EvolutionRecord whose parent is the representative with confidence 0.95, and
returns is_duplicate true, the representative id, the incremented
occurrence_count and action linked_to_existing. -/
theorem register_gene_spec (s : DedupState) (g : GeneData)
    (gene_id file_path : String) (t : Nat)
    (hid : findEvo s.gene_evolution gene_id = none) :
    (register_check s (fingerprintOf g) = none →
      register_gene s g gene_id file_path t =
        Except.ok (⟨false, none, none, some gene_id, "created_new"⟩,
          ⟨s.content_hashes ++
            [⟨fingerprintOf g, t, t, 1, gene_id, [file_path],
              MetaVal.complexityMeta g.complexity⟩],
           s.gene_evolution ++
            [⟨gene_id, fingerprintOf g, none, "creation", 1, t,
              MetaVal.creationMeta file_path g.content.length⟩]⟩)) ∧
    (∀ rep paths cnt,
      register_check s (fingerprintOf g) = some (rep, paths, cnt) →
      register_gene s g gene_id file_path t =
        Except.ok (⟨true, some rep, some (cnt + 1), none, "linked_to_existing"⟩,
          ⟨s.content_hashes.map (fun r =>
              if r.content_hash = fingerprintOf g then
                { r with last_seen := t, occurrence_count := r.occurrence_count + 1,
                         file_paths := if file_path ∈ paths then paths
                                       else paths ++ [file_path] }
              else r),
           s.gene_evolution ++
            [⟨gene_id, fingerprintOf g, some rep, "duplication", 0.95, t,
              MetaVal.duplicationMeta
                ((if file_path ∈ paths then paths else paths ++ [file_path]).headD "")
                file_path⟩]⟩)) :=
  ⟨fun hchk => register_gene_create_eq s g gene_id file_path t hchk hid,
   fun rep paths cnt hchk => register_gene_dup_eq s g gene_id file_path t rep paths cnt hchk hid⟩

/-- Concrete gene used by the registration scenarios. -/
def sumGene : GeneData := ⟨"sum", "function", "function sum(a, b) { return a + b; }", 0⟩

theorem register_gene_spec_witness :
    register_gene dedupEmpty sumGene "G-1" "a.js" 0 =
      Except.ok (⟨false, none, none, some "G-1", "created_new"⟩,
        ⟨[⟨fingerprintOf sumGene, 0, 0, 1, "G-1", ["a.js"], MetaVal.complexityMeta 0⟩],
         [⟨"G-1", fingerprintOf sumGene, none, "creation", 1, 0,
           MetaVal.creationMeta "a.js" sumGene.content.length⟩]⟩) :=
  (register_gene_spec dedupEmpty sumGene "G-1" "a.js" 0 rfl).1 rfl

theorem c1_counterexample :
    regResultOf (register_gene dedupEmpty sumGene "G-1" "a.js" 0)
      = some ⟨false, none, none, some "G-1", "created_new"⟩ := rfl

/-- Store state after one successful registration of sumGene as G-1 in a.js. -/
def sumRegistered : DedupState :=
  regStateOf (register_gene dedupEmpty sumGene "G-1" "a.js" 0) dedupEmpty

/-- Resubmission of the exact same (gene, gene id, file path) triple. -/
def c5Run2 : Except String (RegResult × DedupState) :=
  register_gene sumRegistered sumGene "G-1" "a.js" 1

/-- C5 evaluation: resubmitting the same (gene.id, file_path) pair is not a
no-op: the occurrence_count is incremented to 2 and the creation
EvolutionRecord of the gene is overwritten by a duplication record whose
parent is the gene itself. -/
theorem register_gene_resubmission_double_counts :
    (sumRegistered.content_hashes.map (fun r => r.occurrence_count) = [1]) ∧
    ((regStateOf c5Run2 dedupEmpty).content_hashes.map (fun r => r.occurrence_count) = [2]) ∧
    (sumRegistered.gene_evolution.map (fun e => (e.gene_id, e.evolution_type))
      = [("G-1", "creation")]) ∧
    ((regStateOf c5Run2 dedupEmpty).gene_evolution.map
        (fun e => (e.gene_id, e.evolution_type, e.parent_gene_id))
      = [("G-1", "duplication", some "G-1")]) ∧
    regResultOf c5Run2 = some ⟨true, some "G-1", some 2, none, "linked_to_existing"⟩ :=
  ⟨rfl, rfl, rfl, rfl, rfl⟩

/-- Second registration reusing the gene id G-1 on a different path. -/
def c6Run2 : Except String (RegResult × DedupState) :=
  register_gene sumRegistered sumGene "G-1" "b.js" 1

theorem c6_counterexample :
    (sumRegistered.gene_evolution.map (fun e => (e.gene_id, e.evolution_type))
      = [("G-1", "creation")]) ∧
    ((regStateOf c6Run2 dedupEmpty).gene_evolution.map
        (fun e => (e.gene_id, e.evolution_type)) = [("G-1", "duplication")]) ∧
    ((regStateOf c6Run2 dedupEmpty).gene_evolution.length
      = sumRegistered.gene_evolution.length) ∧
    regResultOf c6Run2 = some ⟨true, some "G-1", some 2, none, "linked_to_existing"⟩ :=
  ⟨rfl, rfl, rfl, rfl⟩

theorem findHash_eq_of_mem (l : List ContentHashRecord) (r : ContentHashRecord)
    (hmem : r ∈ l)
    (hpk : l.Pairwise (fun a b => a.content_hash ≠ b.content_hash)) :
    findHash l r.content_hash = some r := by
  induction l with
  | nil => cases hmem
  | cons x xs ih =>
    have hpc := List.pairwise_cons.mp hpk
    rcases List.mem_cons.mp hmem with h | h
    · subst h
      simp [findHash]
    · have hne : x.content_hash ≠ r.content_hash := hpc.1 r h
      simp only [findHash, if_neg hne]
      exact ih h hpc.2

/-- C6 amended: provided content hashes are pairwise distinct (the primary key
of content_hashes) and the gene id is not already in the ledger (a gene is
submitted once), every successful register_gene call appends exactly one
EvolutionRecord to the ledger, leaving every previously written record in
place unchanged, and every existing ContentHashRecord survives with its
content_hash, first_seen, representative_gene_id and metadata unchanged, its
occurrence_count never decreased, and its file_paths only grown; a call that
reuses an existing gene id instead overwrites that ledger row in place. -/
theorem register_append_only (s : DedupState) (g : GeneData)
    (gene_id file_path : String) (t : Nat) (res : RegResult) (s2 : DedupState)
    (hpk : s.content_hashes.Pairwise (fun a b => a.content_hash ≠ b.content_hash))
    (hid : findEvo s.gene_evolution gene_id = none)
    (hok : register_gene s g gene_id file_path t = Except.ok (res, s2)) :
    (∃ newRec, s2.gene_evolution = s.gene_evolution ++ [newRec]) ∧
    (∀ r ∈ s.content_hashes, ∃ r2 ∈ s2.content_hashes,
      r2.content_hash = r.content_hash ∧ r2.first_seen = r.first_seen ∧
      r2.representative_gene_id = r.representative_gene_id ∧
      r2.metadata = r.metadata ∧
      r.occurrence_count ≤ r2.occurrence_count ∧
      ∀ p ∈ r.file_paths, p ∈ r2.file_paths) := by
  cases hchk : register_check s (fingerprintOf g) with
  | none =>
    rw [register_gene_create_eq s g gene_id file_path t hchk hid] at hok
    injection hok with hpair
    injection hpair with hres hstate
    subst hstate
    constructor
    · exact ⟨_, rfl⟩
    · intro r hr
      exact ⟨r, List.mem_append_left _ hr, rfl, rfl, rfl, rfl, le_refl _, fun p hp => hp⟩
  | some v =>
    obtain ⟨rep, paths, cnt⟩ := v
    rw [register_gene_dup_eq s g gene_id file_path t rep paths cnt hchk hid] at hok
    injection hok with hpair
    injection hpair with hres hstate
    subst hstate
    refine ⟨⟨_, rfl⟩, ?_⟩
    intro r hr
    have hmapmem := List.mem_map_of_mem (fun r : ContentHashRecord =>
      if r.content_hash = fingerprintOf g then
        { r with last_seen := t, occurrence_count := r.occurrence_count + 1,
                 file_paths := if file_path ∈ paths then paths
                               else paths ++ [file_path] }
      else r) hr
    by_cases hhash : r.content_hash = fingerprintOf g
    · have hfind : findHash s.content_hashes (fingerprintOf g) = some r := by
        rw [← hhash]
        exact findHash_eq_of_mem s.content_hashes r hr hpk
      have hproj : paths = r.file_paths := by
        simp only [register_check, hfind] at hchk
        simp only [Option.map] at hchk
        have h1 := Option.some.inj hchk
        have h2 := (Prod.mk.injEq _ _ _ _).mp h1
        exact ((Prod.mk.injEq _ _ _ _).mp h2.2).1.symm
      simp only [if_pos hhash] at hmapmem
      refine ⟨_, hmapmem, rfl, rfl, rfl, rfl, Nat.le_succ _, ?_⟩
      intro p hp
      rw [← hproj] at hp
      by_cases hmem : file_path ∈ paths
      · simpa [if_pos hmem] using hp
      · simp only [if_neg hmem]
        exact List.mem_append_left _ hp
    · simp only [if_neg hhash] at hmapmem
      exact ⟨r, hmapmem, rfl, rfl, rfl, rfl, le_refl _, fun p hp => hp⟩

/-- Run value of the second registration used by the append-only witness. -/
def c6WitRun : Except String (RegResult × DedupState) :=
  register_gene sumRegistered sumGene "G-2" "b.js" 1

/-- Result dict of the witness run. -/
def c6WitRes : RegResult := ⟨true, some "G-1", some 2, none, "linked_to_existing"⟩

/-- Store after the witness run. -/
def c6WitState : DedupState := regStateOf c6WitRun dedupEmpty

theorem register_append_only_witness :
    (∃ newRec, c6WitState.gene_evolution = sumRegistered.gene_evolution ++ [newRec]) ∧
    (∀ r ∈ sumRegistered.content_hashes, ∃ r2 ∈ c6WitState.content_hashes,
      r2.content_hash = r.content_hash ∧ r2.first_seen = r.first_seen ∧
      r2.representative_gene_id = r.representative_gene_id ∧
      r2.metadata = r.metadata ∧
      r.occurrence_count ≤ r2.occurrence_count ∧
      ∀ p ∈ r.file_paths, p ∈ r2.file_paths) := by
  have hpk : sumRegistered.content_hashes.Pairwise
      (fun a b => a.content_hash ≠ b.content_hash) := by
    rw [show sumRegistered.content_hashes
      = [⟨fingerprintOf sumGene, 0, 0, 1, "G-1", ["a.js"], MetaVal.complexityMeta 0⟩]
      from rfl]
    simp
  exact register_append_only sumRegistered sumGene "G-2" "b.js" 1 c6WitRes c6WitState
    hpk rfl rfl

/-- Abbreviation used by the proofs: the row update performed by the UPDATE
statement of the duplicate branch on the matching row. -/
def dupUpdate (r : ContentHashRecord) (path : String) (t : Nat) : ContentHashRecord :=
  { r with last_seen := t, occurrence_count := r.occurrence_count + 1,
           file_paths := if path ∈ r.file_paths then r.file_paths
                         else r.file_paths ++ [path] }

/-- Abbreviation used by the proofs: the duplication ledger row written by the
duplicate branch. -/
def dupEvoRec (r : ContentHashRecord) (gid h path : String) (t : Nat) : EvolutionRecord :=
  ⟨gid, h, some r.representative_gene_id, "duplication", 0.95, t,
    MetaVal.duplicationMeta
      ((if path ∈ r.file_paths then r.file_paths else r.file_paths ++ [path]).headD "")
      path⟩

theorem register_gene_empty_step (g : GeneData) (gid path : String) (t : Nat) :
    register_gene dedupEmpty g gid path t =
      Except.ok (⟨false, none, none, some gid, "created_new"⟩,
        ⟨[⟨fingerprintOf g, t, t, 1, gid, [path], MetaVal.complexityMeta g.complexity⟩],
         [⟨gid, fingerprintOf g, none, "creation", 1, t,
           MetaVal.creationMeta path g.content.length⟩]⟩) := rfl

theorem register_gene_dup_step (r : ContentHashRecord) (ge : List EvolutionRecord)
    (g : GeneData) (gid path : String) (t : Nat)
    (hf : fingerprintOf g = r.content_hash) :
    register_gene ⟨[r], ge⟩ g gid path t =
      Except.ok (⟨true, some r.representative_gene_id, some (r.occurrence_count + 1), none,
          "linked_to_existing"⟩,
        ⟨[dupUpdate r path t],
         insertOrReplaceEvo ge (dupEvoRec r gid (fingerprintOf g) path t)⟩) := by
  have hchk : register_check ⟨[r], ge⟩ r.content_hash
      = some (r.representative_gene_id, r.file_paths, r.occurrence_count) := by
    simp [register_check, findHash]
  simp only [register_gene, register_write, dupUpdate, dupEvoRec, hf, hchk]
  simp

theorem registerSeq_append (l1 l2 : List RegCall) :
    ∀ s : DedupState,
      registerSeq s (l1 ++ l2) =
        (match registerSeq s l1 with
         | Except.ok s1 => registerSeq s1 l2
         | Except.error e => Except.error e) := by
  induction l1 with
  | nil => intro s; rfl
  | cons c cs ih =>
    intro s
    simp only [List.cons_append, registerSeq]
    cases hcase : register_gene s c.gene c.gene_id c.file_path c.t with
    | ok p =>
      obtain ⟨res, s1⟩ := p
      exact ih s1
    | error e => rfl

theorem registerSeq_dup_run (f : String) (calls : List RegCall) :
    ∀ (r : ContentHashRecord) (ge : List EvolutionRecord),
      r.content_hash = f →
      (∀ c ∈ calls, fingerprintOf c.gene = f) →
      ∃ r2 ge2,
        registerSeq ⟨[r], ge⟩ calls = Except.ok ⟨[r2], ge2⟩ ∧
        r2.content_hash = f ∧
        r2.representative_gene_id = r.representative_gene_id ∧
        r2.occurrence_count = r.occurrence_count + calls.length ∧
        (∀ p ∈ r.file_paths, p ∈ r2.file_paths) ∧
        (∀ c ∈ calls, c.file_path ∈ r2.file_paths) := by
  induction calls with
  | nil =>
    intro r ge hr _
    exact ⟨r, ge, rfl, hr, rfl, by simp, fun p hp => hp, by simp⟩
  | cons c cs ih =>
    intro r ge hr hall
    have hfc : fingerprintOf c.gene = r.content_hash :=
      (hall c (List.mem_cons_self c cs)).trans hr.symm
    have hstep := register_gene_dup_step r ge c.gene c.gene_id c.file_path c.t hfc
    have hseq : registerSeq ⟨[r], ge⟩ (c :: cs)
        = registerSeq ⟨[dupUpdate r c.file_path c.t],
            insertOrReplaceEvo ge (dupEvoRec r c.gene_id (fingerprintOf c.gene)
              c.file_path c.t)⟩ cs := by
      simp only [registerSeq, hstep]
    have hr1 : (dupUpdate r c.file_path c.t).content_hash = f := hr
    obtain ⟨r2, ge2, hrun, hh, hrep, hcnt, hpaths, hcalls⟩ :=
      ih (dupUpdate r c.file_path c.t)
        (insertOrReplaceEvo ge (dupEvoRec r c.gene_id (fingerprintOf c.gene) c.file_path c.t))
        hr1 (fun c2 hc2 => hall c2 (List.mem_cons_of_mem c hc2))
    refine ⟨r2, ge2, hseq.trans hrun, hh, hrep, ?_, ?_, ?_⟩
    · rw [hcnt]
      simp only [dupUpdate, List.length_cons]
      omega
    · intro p hp
      apply hpaths
      simp only [dupUpdate]
      by_cases hmem : c.file_path ∈ r.file_paths
      · simpa [if_pos hmem] using hp
      · simp only [if_neg hmem]
        exact List.mem_append_left _ hp
    · intro c2 hc2
      rcases List.mem_cons.mp hc2 with h | h
      · subst h
        apply hpaths
        simp only [dupUpdate]
        by_cases hmem : c2.file_path ∈ r.file_paths
        · simpa [if_pos hmem] using hmem
        · simp only [if_neg hmem]
          exact List.mem_append_right _ (List.mem_singleton.mpr rfl)
      · exact hcalls c2 h

/-- Abbreviation used by the proofs: the content_hashes row inserted by the
creation branch for one call. -/
def createRow (c : RegCall) : ContentHashRecord :=
  ⟨fingerprintOf c.gene, c.t, c.t, 1, c.gene_id, [c.file_path],
    MetaVal.complexityMeta c.gene.complexity⟩

/-- Abbreviation used by the proofs: the creation ledger row for one call. -/
def createEvoRow (c : RegCall) : EvolutionRecord :=
  ⟨c.gene_id, fingerprintOf c.gene, none, "creation", 1, c.t,
    MetaVal.creationMeta c.file_path c.gene.content.length⟩

theorem registerSeq_cons_empty (c0 : RegCall) (rest : List RegCall) :
    registerSeq dedupEmpty (c0 :: rest)
      = registerSeq ⟨[createRow c0], [createEvoRow c0]⟩ rest := by
  simp only [registerSeq, register_gene_empty_step, createRow, createEvoRow]

/-- C7: starting from the empty store, registering a first gene of a given
fingerprint and then any further genes of the same fingerprint under distinct
gene ids succeeds and yields a single ContentHashRecord carrying that
fingerprint, with occurrence_count equal to the number of registrations,
representative_gene_id fixed to the first gene id and never reassigned by any
later call, every registered path present in the final path set, and the path
set of the record after any prefix of the sequence contained in the final one:
file_paths only ever grows. -/
theorem registerSeq_single_record (c0 : RegCall) (calls : List RegCall) (f : String)
    (hf0 : fingerprintOf c0.gene = f)
    (hfs : ∀ c ∈ calls, fingerprintOf c.gene = f)
    (hnd : ((c0 :: calls).map (fun c => c.gene_id)).Nodup) :
    ∃ r ge,
      registerSeq dedupEmpty (c0 :: calls) = Except.ok ⟨[r], ge⟩ ∧
      r.content_hash = f ∧
      r.occurrence_count = calls.length + 1 ∧
      r.representative_gene_id = c0.gene_id ∧
      c0.file_path ∈ r.file_paths ∧
      (∀ c ∈ calls, c.file_path ∈ r.file_paths) ∧
      (∀ pre post, calls = pre ++ post →
        ∀ r1 ge1, registerSeq dedupEmpty (c0 :: pre) = Except.ok ⟨[r1], ge1⟩ →
          ∀ p ∈ r1.file_paths, p ∈ r.file_paths) := by
  have hcr : (createRow c0).content_hash = f := hf0
  obtain ⟨r2, ge2, hrun, hh, hrep, hcnt, hpaths, hcalls⟩ :=
    registerSeq_dup_run f calls (createRow c0) [createEvoRow c0] hcr hfs
  refine ⟨r2, ge2, (registerSeq_cons_empty c0 calls).trans hrun, hh, ?_, ?_, ?_, hcalls, ?_⟩
  · rw [hcnt]
    simp only [createRow]
    omega
  · simp [hrep, createRow]
  · exact hpaths c0.file_path (by simp [createRow])
  · intro pre post hsplit r1 ge1 hpre p hp
    obtain ⟨r1q, ge1q, hrun1, hh1, _, _, _, _⟩ :=
      registerSeq_dup_run f pre (createRow c0) [createEvoRow c0] hcr
        (fun c hc => hfs c (by rw [hsplit]; exact List.mem_append_left _ hc))
    have hpre2 : registerSeq ⟨[createRow c0], [createEvoRow c0]⟩ pre
        = Except.ok ⟨[r1], ge1⟩ :=
      (registerSeq_cons_empty c0 pre).symm.trans hpre
    have heq : (⟨[r1q], ge1q⟩ : DedupState) = ⟨[r1], ge1⟩ :=
      Except.ok.inj (hrun1.symm.trans hpre2)
    have hr1eq : r1q = r1 := by
      injection heq with h1 h2
      injection h1 with hhead _
    have hmain : registerSeq ⟨[createRow c0], [createEvoRow c0]⟩ (pre ++ post)
        = Except.ok ⟨[r2], ge2⟩ := by
      rw [← hsplit]
      exact hrun
    rw [registerSeq_append pre post _] at hmain
    rw [hpre2] at hmain
    obtain ⟨r2q, ge2q, hrun2, _, _, _, hpaths2, _⟩ :=
      registerSeq_dup_run f post r1 ge1 (hr1eq ▸ hh1)
        (fun c hc => hfs c (by rw [hsplit]; exact List.mem_append_right _ hc))
    have heq2 : (⟨[r2q], ge2q⟩ : DedupState) = ⟨[r2], ge2⟩ :=
      Except.ok.inj (hrun2.symm.trans hmain)
    have hr2eq : r2q = r2 := by
      injection heq2 with h1 h2
      injection h1 with hhead _
    rw [← hr2eq]
    exact hpaths2 p hp

/-- First registration request of the C7 scenario. -/
def c7Call0 : RegCall := ⟨sumGene, "G-1", "a.js", 0⟩

/-- Second registration request of the C7 scenario: a differently formatted,
differently cased copy with the same fingerprint and a fresh gene id. -/
def c7Call1 : RegCall :=
  ⟨⟨"Sum", "function", "function  sum(a, b)  { return a + b; }", 0⟩, "G-2", "b.js", 1⟩

theorem registerSeq_single_record_witness :
    ∃ r ge,
      registerSeq dedupEmpty [c7Call0, c7Call1] = Except.ok ⟨[r], ge⟩ ∧
      r.content_hash = fingerprintOf sumGene ∧
      r.occurrence_count = 2 ∧
      r.representative_gene_id = "G-1" ∧
      "a.js" ∈ r.file_paths ∧
      (∀ c ∈ [c7Call1], c.file_path ∈ r.file_paths) ∧
      (∀ pre post, [c7Call1] = pre ++ post →
        ∀ r1 ge1, registerSeq dedupEmpty (c7Call0 :: pre) = Except.ok ⟨[r1], ge1⟩ →
          ∀ p ∈ r1.file_paths, p ∈ r.file_paths) :=
  registerSeq_single_record c7Call0 [c7Call1] (fingerprintOf sumGene) rfl
    (by decide) (by decide)

/-- Gene submitted by concurrent writer A. -/
def c10GeneA : GeneData := ⟨"dup", "function", "x y", 0⟩

/-- Gene submitted by concurrent writer B: a formatting variant with the same
fingerprint. -/
def c10GeneB : GeneData := ⟨"dup", "function", "x  y", 0⟩

/-- The stale read both writers perform on the empty store before either one
writes: the fingerprint is absent. -/
def c10Check : Option (String × List String × Nat) :=
  register_check dedupEmpty (fingerprintOf c10GeneA)

/-- Store after writer A completes its write phase. -/
def c10State1 : DedupState :=
  regStateOf (register_write dedupEmpty c10Check c10GeneA "G-A" "a.js" 0) dedupEmpty

/-- C10 evaluation: under the interleaving in which both writers pass the
existence check before either writes, writer A wins created_new and writer B,
replaying its write phase with its stale check result against the updated
store, fails with a primary-key violation instead of observing the winner and
recording a duplication; a fresh sequential call on the updated store would
have recorded the duplication. The check and the write are two separate
phases with no lock or transaction forming an atomic unit. -/
theorem register_race_loser_errors :
    c10Check = none ∧
    fingerprintOf c10GeneB = fingerprintOf c10GeneA ∧
    regResultOf (register_write dedupEmpty c10Check c10GeneA "G-A" "a.js" 0)
      = some ⟨false, none, none, some "G-A", "created_new"⟩ ∧
    register_write c10State1 c10Check c10GeneB "G-B" "b.js" 1
      = Except.error "UNIQUE constraint failed: content_hashes.content_hash" ∧
    regResultOf (register_gene c10State1 c10GeneB "G-B" "b.js" 1)
      = some ⟨true, some "G-A", some 2, none, "linked_to_existing"⟩ :=
  ⟨rfl, rfl, rfl, rfl, rfl⟩

/-- Parsed JSON content of a genes-table row: the type tag and the code and
content fields the reconstruction walk reads; fields absent from the stored
JSON default to the empty string, as the dict.get calls with empty defaults
do. -/
structure GeneContent where
  type : String
  code : String := ""
  content : String := ""
deriving DecidableEq

/-- A row of the genes table of the genetic database, with the columns
reconstruct_file reads. -/
structure GeneRow where
  gene_id : String
  file_path : String
  created_at : Nat
  content : GeneContent
deriving DecidableEq

/-- Substring test over character lists. -/
def listContainsSub : List Char → List Char → Bool
  | [], needle => needle.isEmpty
  | c :: rest, needle => listStartsWith (c :: rest) needle || listContainsSub rest needle

/-- SQL LIKE with a percent-wrapped pattern: the version occurs as a substring
of the gene id; sqlite LIKE is ASCII case-insensitive, modelled by lowering
both sides. -/
def likeContains (hay needle : String) : Bool :=
  listContainsSub (hay.data.map Char.toLower) (needle.data.map Char.toLower)

/-- Sorted insertion for ORDER BY created_at DESC. The source query leaves the
order of equal timestamps to sqlite; the claims only concern rows with
distinct timestamps, for which this sort is the unique descending order. -/
def insertByCreatedDesc (g : GeneRow) : List GeneRow → List GeneRow
  | [] => [g]
  | h :: rest => if h.created_at ≥ g.created_at then h :: insertByCreatedDesc g rest
                 else g :: h :: rest

/-- All rows ordered by created_at descending. -/
def sortByCreatedDesc (l : List GeneRow) : List GeneRow :=
  l.foldr insertByCreatedDesc []

/-- Result payload of a successful reconstruction. The short display hash of
the source result is a display truncation of the digest of
reconstructed_content and is omitted from the model. -/
structure ReconResult where
  file_path : String
  version : String
  reconstructed_content : String
  gene_count : Nat
  genes_used : List String
deriving DecidableEq

/-- The accumulation loop of reconstruct_file: walk the ordered genes, append
the code of each function gene followed by a blank line, and on the first
full_file gene replace the whole content with its stored content and stop. -/
def reconstructLoop : List GeneRow → String → Nat → String × Nat
  | [], acc, cnt => (acc, cnt)
  | g :: rest, acc, cnt =>
    if g.content.type = "function" then
      reconstructLoop rest (acc ++ g.content.code ++ "\n\n") (cnt + 1)
    else if g.content.type = "full_file" then
      (g.content.content, 1)
    else
      reconstructLoop rest acc cnt

/-- reconstruct_file from the source: select the genes of the path (filtered
by version substring when the version is not latest), order them newest
first, fail when none are found, otherwise run the accumulation walk;
genes_used lists every fetched gene id. -/
def reconstruct_file (genes_table : List GeneRow) (file_path version : String) :
    Except String ReconResult :=
  let selected :=
    if version = "latest" then
      genes_table.filter (fun g => decide (g.file_path = file_path))
    else
      genes_table.filter
        (fun g => decide (g.file_path = file_path) && likeContains g.gene_id version)
  let genes := sortByCreatedDesc selected
  if genes.isEmpty then
    Except.error ("No genes found for file: " ++ file_path)
  else
    let walk := reconstructLoop genes "" 0
    Except.ok ⟨file_path, version, walk.1, walk.2, genes.map (fun g => g.gene_id)⟩

/-- C2: for a path holding a function gene, then a full_file gene, then a
newer function gene, reconstruct with version latest succeeds with the content
of the full_file gene exactly and gene_count 1: the walk runs newest first,
the first full_file gene encountered replaces the accumulated content and
stops the walk, so no older gene contributes. -/
theorem reconstruct_latest_full_file_wins
    (path id1 idF id2 c1 cf c2 : String) (t1 t2 t3 : Nat)
    (h12 : t1 < t2) (h23 : t2 < t3) :
    reconstruct_file
        [⟨id1, path, t1, ⟨"function", c1, ""⟩⟩,
         ⟨idF, path, t2, ⟨"full_file", "", cf⟩⟩,
         ⟨id2, path, t3, ⟨"function", c2, ""⟩⟩] path "latest"
      = Except.ok ⟨path, "latest", cf, 1, [id2, idF, id1]⟩ := by
  have h13 : t1 < t3 := h12.trans h23
  simp [reconstruct_file, sortByCreatedDesc, insertByCreatedDesc, reconstructLoop,
    ge_iff_le, h12.le, h23.le, h13.le]

theorem reconstruct_latest_full_file_wins_witness :
    reconstruct_file
        [⟨"g1", "app.js", 1, ⟨"function", "fa", ""⟩⟩,
         ⟨"f1", "app.js", 2, ⟨"full_file", "", "FULL"⟩⟩,
         ⟨"g2", "app.js", 3, ⟨"function", "fb", ""⟩⟩] "app.js" "latest"
      = Except.ok ⟨"app.js", "latest", "FULL", 1, ["g2", "f1", "g1"]⟩ :=
  reconstruct_latest_full_file_wins "app.js" "g1" "f1" "g2" "fa" "FULL" "fb" 1 2 3
    (by norm_num) (by norm_num)
